import Mathlib

/-!
Verification development for the YoutubeVideoContentExtraction repository.

The transcript-acquisition pipeline of src/app5.py is shallowly embedded:
pure string manipulation is modelled over lists of characters, the external
collaborators (captions service, media downloader, speech recognizer) are
modelled as explicit outcome parameters, and the Python tuple results
(value, error_message) become pairs of options.  CPython library functions
that the code calls (urllib.parse.urlparse, urllib.parse.parse_qs, str.strip,
str.join, re.search) are modelled faithfully for the inputs the claims range
over; simplifications relative to CPython are noted at each definition.
-/

/-! ## Character classes -/

/-- Characters allowed in a YouTube video identifier: the class
[0-9A-Za-z_-] used by the regular expressions in
src/youtube-transcript-summary-tool-v1.py line 32. -/
def isIdChar (c : Char) : Bool := c.isAlphanum || c = '-' || c = '_'

/-- Characters CPython accepts inside a URL scheme after the initial
letter: letters, digits, plus, minus and dot. -/
def isSchemeChar (c : Char) : Bool :=
  c.isAlpha || c.isDigit || c = '+' || c = '-' || c = '.'

/-- Characters that terminate the network-location part of a URL. -/
def isNetlocEnd (c : Char) : Bool := c = '/' || c = '?' || c = '#'

/-! ## List-of-characters utilities shared by the parser models -/

/-- Split a character list at the first occurrence of a character:
returns the part before it and, when the character occurs, the part
after it.  Models the str.partition and find-based splits CPython uses. -/
def splitAtFirst (c : Char) : List Char → List Char × Option (List Char)
  | [] => ([], none)
  | x :: xs =>
    if x = c then ([], some xs)
    else
      let r := splitAtFirst c xs
      (x :: r.1, r.2)

/-- Split a character list on every occurrence of a character, keeping
empty groups, exactly as the Python str.split with a separator does:
so splitting "/embed/x" on the slash gives ["", "embed", "x"]. -/
def splitChar (c : Char) : List Char → List (List Char)
  | [] => [[]]
  | x :: xs =>
    if x = c then [] :: splitChar c xs
    else
      match splitChar c xs with
      | [] => [[x]]
      | g :: gs => (x :: g) :: gs

/-- Part of a list after the last occurrence of a character, the whole
list when the character is absent; models str.rpartition selecting the
final component, used by CPython to drop URL userinfo before an at sign. -/
def lastPartAfter (c : Char) (l : List Char) : List Char :=
  (l.reverse.takeWhile (fun x => x ≠ c)).reverse

/-! ## Model of urllib.parse.urlparse and parse_qs

The fields of the parse result that src/app5.py reads are hostname, path
and query.  Fragments are split off and discarded; params splitting is
irrelevant for the claims (no semicolon URLs are involved).  Percent and
plus decoding inside query values is omitted: every claim exercises the
query parser only on characters from the identifier alphabet, which
decode to themselves. -/

structure ParsedUrl where
  scheme : Option (List Char)
  netloc : List Char
  path : List Char
  query : List Char
deriving DecidableEq, Repr

/-- Scheme extraction as CPython urlsplit does it: look at the first
colon only; the text before it must be nonempty, start with a letter and
consist of scheme characters, otherwise the URL has no scheme. -/
def splitScheme (cs : List Char) : Option (List Char) × List Char :=
  match splitAtFirst ':' cs with
  | (pre, some rest) =>
    match pre with
    | [] => (none, cs)
    | c :: _ =>
      if c.isAlpha && pre.all isSchemeChar then
        (some (pre.map Char.toLower), rest)
      else (none, cs)
  | (_, none) => (none, cs)

/-- Network-location extraction: present exactly when the remainder
starts with two slashes, and extends to the first slash, question mark
or hash. -/
def splitNetloc (cs : List Char) : List Char × List Char :=
  match cs with
  | '/' :: '/' :: rest =>
    (rest.takeWhile (fun c => !isNetlocEnd c),
     rest.dropWhile (fun c => !isNetlocEnd c))
  | _ => ([], cs)

/-- The urlparse model: scheme, then optional netloc, then the fragment
is cut at the first hash and the query at the first question mark. -/
def urlparseChars (cs : List Char) : ParsedUrl :=
  let s1 := splitScheme cs
  let s2 := splitNetloc s1.2
  let beforeFrag := (splitAtFirst '#' s2.2).1
  let s4 := splitAtFirst '?' beforeFrag
  { scheme := s1.1, netloc := s2.1, path := s4.1, query := s4.2.getD [] }

/-- Hostname of a netloc: CPython drops userinfo before the last at
sign, takes the part before the first colon and lowercases it; an empty
result is reported as absent.  Bracketed IPv6 netlocs make modern
CPython raise ValueError, which the try block of extract_video_id turns
into a None result, so the model reports them as absent directly. -/
def hostnameOf (nl : List Char) : Option (List Char) :=
  let afterAt := lastPartAfter '@' nl
  if afterAt.contains '[' || afterAt.contains ']' then none
  else
    let h := (splitAtFirst ':' afterAt).1
    if h = [] then none else some (h.map Char.toLower)

/-- Name and value pairs of a query string as parse_qs produces them
with default options: fields are split on ampersands, a field without an
equals sign or with an empty value is skipped, and an empty field is
skipped. -/
def qsPairs (q : List Char) : List (List Char × List Char) :=
  (splitChar '&' q).filterMap (fun f =>
    match splitAtFirst '=' f with
    | (_, none) => none
    | (n, some v) => if v = [] then none else some (n, v))

/-- First value listed for a name, as the subscript chain
parse_qs(query)[name][0] reads it; absence models the KeyError that the
surrounding try block of extract_video_id converts to None. -/
def qsFirst (name : List Char) (q : List Char) : Option (List Char) :=
  (((qsPairs q).filter (fun p => p.1 = name)).head?).map (fun p => p.2)

/-! ## src/app5.py lines 12 to 35: extract_video_id -/

/-- Core of extract_video_id from src/app5.py over character lists:
parse the URL; a youtube.com host with path /watch answers the first v
query value, a youtube.com host with an /embed/ or /v/ path answers the
third slash-separated path component, a youtu.be host answers the path
without its leading slash, anything else is None.  The absent cases of
the two indexing operations model the KeyError and IndexError paths that
the blanket except of the source turns into None. -/
def extractChars (cs : List Char) : Option (List Char) :=
  let u := urlparseChars cs
  match hostnameOf u.netloc with
  | some h =>
    if h = "www.youtube.com".data || h = "youtube.com".data then
      if u.path = "/watch".data then
        qsFirst "v".data u.query
      else if "/embed/".data.isPrefixOf u.path || "/v/".data.isPrefixOf u.path then
        (splitChar '/' u.path)[2]?
      else none
    else if h = "youtu.be".data then some (u.path.drop 1)
    else none
  | none => none

/-- extract_video_id from src/app5.py lines 12 to 35.  Totality of the
model reflects the blanket except clause: no input raises. -/
def extract_video_id (s : String) : Option String :=
  (extractChars s.data).map String.mk

/-! ## src/app4.py lines 11 to 31: regular-expression extractor

Both patterns of app4 have the shape
(?:A1|A2|...)([^&?\n]+) with literal alternatives Ai and a greedy
nonempty capture of characters other than ampersand, question mark and
newline, followed in the first pattern by a trailing .* that never
fails.  re.search semantics: positions are tried left to right; at a
position the alternatives are tried in written order, and an alternative
succeeds when its literal matches there and at least one capturable
character follows. -/

/-- Characters that stop the [^&?\n]+ capture groups of app4. -/
def stopChar (c : Char) : Bool := c = '&' || c = '?' || c = '\n'

/-- Greedy nonempty capture of non-stop characters; absent when no such
character is available at this position. -/
def capPlus (cs : List Char) : Option (List Char) :=
  let t := cs.takeWhile (fun c => !stopChar c)
  if t = [] then none else some t

/-- Try the literal alternatives in order at one fixed position. -/
def matchAlts (alts : List (List Char)) (cs : List Char) : Option (List Char) :=
  match alts with
  | [] => none
  | a :: rest =>
    if a.isPrefixOf cs then
      match capPlus (cs.drop a.length) with
      | some r => some r
      | none => matchAlts rest cs
    else matchAlts rest cs

/-- Leftmost search: first position where some alternative matches. -/
def searchAlts (alts : List (List Char)) : List Char → Option (List Char)
  | [] => none
  | c :: cs =>
    match matchAlts alts (c :: cs) with
    | some r => some r
    | none => searchAlts alts cs

/-- Alternatives of the first app4 pattern. -/
def app4Pat1 : List (List Char) :=
  ["v=".data, "/v/".data, "youtu.be/".data, "/embed/".data]

/-- Alternatives of the second app4 pattern. -/
def app4Pat2 : List (List Char) :=
  ["watch?".data, "/v/".data, "youtu.be/".data, "/embed/".data]

/-- extract_video_id from src/app4.py lines 11 to 31: the two patterns
are tried in order over the whole input, first match wins, no match
gives None. -/
def extract_video_id_app4 (s : String) : Option String :=
  match searchAlts app4Pat1 s.data with
  | some r => some (String.mk r)
  | none => (searchAlts app4Pat2 s.data).map String.mk

/-! ## src/youtube-transcript-summary-tool-v1.py lines 26 to 40

The first pattern is (?:v=|\/)([0-9A-Za-z_-]{11}).* and the second is
(?:youtu\.be\/)([0-9A-Za-z_-]{11}): after the literal part, exactly
eleven identifier-alphabet characters are captured; the trailing .* of
the first pattern never fails.  When the fixed-width capture cannot be
completed at a position the engine moves on to the next position. -/

/-- Capture of exactly eleven identifier characters, absent when fewer
than eleven such characters follow. -/
def take11Id (cs : List Char) : Option (List Char) :=
  let t := cs.take 11
  if t.length = 11 && t.all isIdChar then some t else none

/-- First v1 pattern at one position: the alternative v= is tried, then
the single slash; a successful literal must be followed by the
fixed-width capture. -/
def v1MatchAt1 (cs : List Char) : Option (List Char) :=
  if "v=".data.isPrefixOf cs then take11Id (cs.drop 2)
  else if "/".data.isPrefixOf cs then take11Id (cs.drop 1)
  else none

/-- Leftmost search for the first v1 pattern. -/
def v1Search1 : List Char → Option (List Char)
  | [] => none
  | c :: cs =>
    match v1MatchAt1 (c :: cs) with
    | some r => some r
    | none => v1Search1 cs

/-- Second v1 pattern at one position. -/
def v1MatchAt2 (cs : List Char) : Option (List Char) :=
  if "youtu.be/".data.isPrefixOf cs then take11Id (cs.drop 9) else none

/-- Leftmost search for the second v1 pattern. -/
def v1Search2 : List Char → Option (List Char)
  | [] => none
  | c :: cs =>
    match v1MatchAt2 (c :: cs) with
    | some r => some r
    | none => v1Search2 cs

/-- extract_video_id from src/youtube-transcript-summary-tool-v1.py
lines 26 to 40: an empty input answers None at once, then the two
patterns are tried in order. -/
def extract_video_id_v1 (s : String) : Option String :=
  if s.data = [] then none
  else
    match v1Search1 s.data with
    | some r => some (String.mk r)
    | none => (v1Search2 s.data).map String.mk

/-! ## Models of str.strip and str.join -/

/-- Leading and trailing whitespace removal over characters. -/
def stripChars (l : List Char) : List Char :=
  ((l.dropWhile Char.isWhitespace).reverse.dropWhile Char.isWhitespace).reverse

/-- Model of the Python str.strip method with no argument. -/
def pyStrip (s : String) : String := String.mk (stripChars s.data)

/-- Model of the Python str.join method: the empty list joins to the
empty string, and otherwise the later elements are folded onto the first
with the separator between consecutive elements, mirroring the
concatenation loop CPython performs. -/
def pyJoin (sep : String) : List String → String
  | [] => ""
  | x :: xs => xs.foldl (fun acc y => acc ++ sep ++ y) x

/-! ## src/app5.py lines 38 to 62: fetch_youtube_transcript

The captions service YouTubeTranscriptApi.get_transcript is a
collaborator: it either returns the ordered list of segment texts or
raises one of the exceptions the source catches.  It is passed here as a
function from the video identifier to an outcome. -/

inductive CaptionOutcome where
  | segments (texts : List String)
  | transcriptsDisabled
  | noTranscriptFound
  | otherError (e : String)

/-- The caption join of src/app5.py line 54: each segment text is
stripped, then the texts are joined with a single-space separator. -/
def captionJoin (texts : List String) : String :=
  pyJoin " " (texts.map pyStrip)

/-- fetch_youtube_transcript from src/app5.py lines 38 to 62.  The
falsiness test on the extracted identifier covers both None and the
empty string. -/
def fetch_youtube_transcript (url : String) (svc : String → CaptionOutcome) :
    Option String × Option String :=
  match extract_video_id url with
  | none => (none, some "Invalid YouTube URL format")
  | some vid =>
    if vid = "" then (none, some "Invalid YouTube URL format")
    else
      match svc vid with
      | .segments texts => (some (captionJoin texts), none)
      | .transcriptsDisabled => (none, some "Transcripts are disabled for this video")
      | .noTranscriptFound => (none, some "No transcript found for this video")
      | .otherError e => (none, some ("An unexpected error occurred: " ++ e))

/-! ## src/app5.py lines 65 to 92: download_audio

The yt_dlp download either completes, leaving the transcoded file at
the destination with the wav extension appended, or raises; the outcome
of that collaborator call is a parameter. -/

inductive DownloadOutcome where
  | ok
  | fail (e : String)

/-- download_audio from src/app5.py lines 65 to 92. -/
def download_audio (output_path : String) (o : DownloadOutcome) :
    Option String × Option String :=
  match o with
  | .ok => (some (output_path ++ ".wav"), none)
  | .fail e => (none, some ("Error downloading audio: " ++ e))

/-! ## src/app5.py lines 95 to 133: transcribe_audio

The audio slicing of line 113 is
[audio[i:i + 30000] for i in range(0, len(audio), 30000)] where
len(audio) is the duration in milliseconds; a pydub slice past the end
is truncated at the end, so the slice starting at i has length
min 30000 (d - i). -/

/-- The Python range(i, d, 30000) sequence of slice starts. -/
def rangeStep (i d : Nat) : List Nat :=
  if i < d then i :: rangeStep (i + 30000) d else []
termination_by d - i
decreasing_by omega

/-- The chunk list of src/app5.py line 113 for an asset of duration d
milliseconds, as pairs of start offset and length. -/
def chunks (d : Nat) : List (Nat × Nat) :=
  (rangeStep 0 d).map (fun i => (i, min 30000 (d - i)))

/-- Outcome of one recognize_google call on one chunk: recognized text,
the UnknownValueError signal for unintelligible audio, or the
RequestError transport failure. -/
inductive RecogResult where
  | text (s : String)
  | unknownValue
  | requestError (e : String)

/-- The per-chunk loop of src/app5.py lines 118 to 129 over the listed
chunk indices: recognized text is collected in order, an unintelligible
chunk is skipped, and a request error abandons the loop with that cause.
The Python accumulator loop is phrased as structural recursion over the
index list. -/
def chunkLoop (recog : Nat → RecogResult) : List Nat → Except String (List String)
  | [] => .ok []
  | i :: rest =>
    match recog i with
    | .text s => (chunkLoop recog rest).map (fun ts => s :: ts)
    | .unknownValue => chunkLoop recog rest
    | .requestError e => .error e

/-- transcribe_audio from src/app5.py lines 95 to 133.  Loading the
audio file is a collaborator step that either yields the duration in
milliseconds or raises, which the outer except turns into the
transcription error message of line 133; a request error inside the
loop produces the API error message of line 129, and otherwise line 131
joins the collected texts with single spaces, without stripping. -/
def transcribe_audio (load : Except String Nat) (recog : Nat → RecogResult) :
    Option String × Option String :=
  match load with
  | .error e => (none, some ("Error transcribing audio: " ++ e))
  | .ok d =>
    match chunkLoop recog (List.range (chunks d).length) with
    | .ok texts => (some (pyJoin " " texts), none)
    | .error e => (none, some ("API Error: " ++ e))

/-- Chunk indices on which recognize_google is invoked, in order: the
loop stops submitting right after a chunk reports a request error. -/
def submittedChunks (recog : Nat → RecogResult) : List Nat → List Nat
  | [] => []
  | i :: rest =>
    match recog i with
    | .requestError _ => [i]
    | _ => i :: submittedChunks recog rest

/-! ## File-system events of the audio-fallback acquisition

src/app5.py creates one temporary file per chunk inside a with block
(lines 119 to 120), so the file is removed when the block exits, both on
the continue path and on the early return of the request-error path; the
downloaded asset lives in the temporary directory of main (line 154),
which is removed when its with block exits after transcription.  The
acquisition is modelled as the sequence of create and remove events it
performs. -/

inductive FsEvent where
  | mkAsset
  | rmAsset
  | mkChunk (i : Nat)
  | rmChunk (i : Nat)
deriving DecidableEq, Repr

/-- Events of the chunk loop: each processed chunk exports its temporary
file and removes it when its with block exits, whatever the recognition
outcome; after a request error no further chunk is touched. -/
def chunkTrace (recog : Nat → RecogResult) : List Nat → List FsEvent
  | [] => []
  | i :: rest =>
    match recog i with
    | .requestError _ => [.mkChunk i, .rmChunk i]
    | _ => .mkChunk i :: .rmChunk i :: chunkTrace recog rest

/-- Events of one audio-fallback acquisition, following main of
src/app5.py lines 152 to 171: a failed download creates no asset and the
function returns; a successful download materializes the asset, the
chunk loop runs, and the temporary directory removal deletes the asset
when the with block of line 154 exits. -/
def acquisitionTrace (dl : DownloadOutcome) (load : Except String Nat)
    (recog : Nat → RecogResult) : List FsEvent :=
  match dl with
  | .fail _ => []
  | .ok =>
    .mkAsset ::
      ((match load with
        | .error _ => []
        | .ok d => chunkTrace recog (List.range (chunks d).length)) ++ [.rmAsset])

/-! ## Specification-side definitions used to state the claims -/

/-- A component result populates exactly one side of the pair: a value
and no error, or no value and an error. -/
def exactlyOnePopulated (p : Option String × Option String) : Prop :=
  (p.1.isSome = true ∧ p.2 = none) ∨ (p.1 = none ∧ p.2.isSome = true)

/-- Texts of the chunks whose recognition succeeds, in index order:
unintelligible chunks contribute nothing. -/
def okTexts (recog : Nat → RecogResult) (l : List Nat) : List String :=
  l.filterMap (fun i =>
    match recog i with
    | .text s => some s
    | _ => none)

/-- Modelled from the spec: the join of section 3 of the specification,
stated by its own words as a recurrence — each segment is trimmed and
exactly one separating space stands between consecutive segments. -/
def specJoinTrimmed : List String → String
  | [] => ""
  | [x] => pyStrip x
  | x :: y :: t => pyStrip x ++ " " ++ specJoinTrimmed (y :: t)

/-- The same recurrence without per-segment trimming: exactly one
separating space between consecutive raw segments. -/
def specJoinRaw : List String → String
  | [] => ""
  | [x] => x
  | x :: y :: t => x ++ " " ++ specJoinRaw (y :: t)

/-- The parsed hostname of a reference is one of the three recognized
platform hosts. -/
def recognizedHost (s : String) : Bool :=
  match hostnameOf (urlparseChars s.data).netloc with
  | some h => h = "www.youtube.com".data || h = "youtube.com".data || h = "youtu.be".data
  | none => false

/-- Every chunk temporary file created in the trace is removed by the
very next event, so the file never survives its chunk. -/
def chunksScoped : List FsEvent → Bool
  | [] => true
  | .mkChunk i :: rest => (rest.head? = some (.rmChunk i)) && chunksScoped rest
  | _ :: rest => chunksScoped rest

/-- Recognition oracle failing with a transport error on every chunk,
hence already on chunk 0. -/
def recogFail0 : Nat → RecogResult := fun _ => .requestError "boom"

/-- Recognition oracle with text on chunk 0 and a transport error on
every later chunk, hence failing first on chunk 1. -/
def recogFail1 : Nat → RecogResult := fun i =>
  if i = 0 then .text "ok" else .requestError "boom"

/-- Recognition oracle for the scenario of section 8 of the
specification: chunk 0 yields foo, chunk 1 is unintelligible, chunk 2
yields bar, later chunks are unintelligible. -/
def recogFUB : Nat → RecogResult := fun i =>
  if i = 0 then .text "foo"
  else if i = 2 then .text "bar"
  else .unknownValue

/-- Recognition oracle whose texts carry surrounding whitespace. -/
def recogWS : Nat → RecogResult := fun i =>
  if i = 0 then .text " a " else .text "b"

/-! ## General lemmas about the list and string utilities -/

/-- Rebuilding a string from its characters is the identity. -/
theorem mk_data (s : String) : String.mk s.data = s := rfl

/-- Splitting at a character that does not occur finds nothing. -/
theorem splitAtFirst_not_mem (c : Char) (l : List Char) (h : c ∉ l) :
    splitAtFirst c l = (l, none) := by
  induction l with
  | nil => rfl
  | cons x xs ih =>
    simp only [List.mem_cons, not_or] at h
    simp [splitAtFirst, Ne.symm h.1, ih h.2]

/-- Splitting on a character that does not occur keeps the list whole. -/
theorem splitChar_not_mem (c : Char) (l : List Char) (h : c ∉ l) :
    splitChar c l = [l] := by
  induction l with
  | nil => rfl
  | cons x xs ih =>
    simp only [List.mem_cons, not_or] at h
    rw [splitChar, if_neg (by exact fun he => h.1 he.symm)]
    rw [ih h.2]

/-- A character outside the identifier alphabet does not occur in a
list drawn from that alphabet. -/
theorem not_mem_of_all_isIdChar (l : List Char) (hall : l.all isIdChar = true)
    (c : Char) (hc : isIdChar c = false) : c ∉ l := by
  intro hm
  have h := (List.all_eq_true.mp hall) c hm
  rw [hc] at h
  exact Bool.false_ne_true h

/-- Identifier characters never stop the app4 capture groups. -/
theorem isIdChar_not_stop (c : Char) (h : isIdChar c = true) : stopChar c = false := by
  cases hs : stopChar c
  · rfl
  · exfalso
    simp [stopChar] at hs
    rcases hs with (rfl | rfl) | rfl <;> exact absurd h (by decide)

/-- The capture run swallows a whole identifier-alphabet list. -/
theorem takeWhile_not_stop (idc : List Char) (hall : idc.all isIdChar = true) :
    idc.takeWhile (fun c => !stopChar c) = idc := by
  rw [List.takeWhile_eq_self_iff]
  intro c hm
  simp [isIdChar_not_stop c ((List.all_eq_true.mp hall) c hm)]

/-- The greedy nonempty capture applied to a nonempty identifier list
captures exactly that list. -/
theorem capPlus_of_id (idc : List Char) (hne : idc ≠ [])
    (hall : idc.all isIdChar = true) : capPlus idc = some idc := by
  rw [capPlus]
  simp only [takeWhile_not_stop idc hall]
  simp [hne]

/-- The left fold underlying pyJoin distributes over a prepended
accumulator. -/
theorem pyJoin_foldl_append (sep a b : String) (l : List String) :
    l.foldl (fun acc y => acc ++ sep ++ y) (a ++ b) =
      a ++ l.foldl (fun acc y => acc ++ sep ++ y) b := by
  induction l generalizing b with
  | nil => rfl
  | cons c cs ih =>
    simp only [List.foldl_cons]
    rw [String.append_assoc, String.append_assoc, ih, String.append_assoc]

/-- Unfolding of pyJoin on a nonempty list: head, then a separator and
the join of the tail when the tail is nonempty. -/
theorem pyJoin_cons (sep x : String) (xs : List String) :
    pyJoin sep (x :: xs) = x ++ (if xs.isEmpty then "" else sep ++ pyJoin sep xs) := by
  cases xs with
  | nil => simp [pyJoin]
  | cons y ys =>
    show (y :: ys).foldl (fun acc z => acc ++ sep ++ z) x = _
    simp only [List.foldl_cons, List.isEmpty_cons, Bool.false_eq_true, if_false]
    rw [String.append_assoc, pyJoin_foldl_append]
    show _ = x ++ (sep ++ (ys.foldl (fun acc z => acc ++ sep ++ z) y))
    rw [pyJoin_foldl_append sep sep y ys]

/-- The single-space join satisfies the recurrence of the untrimmed
specification join. -/
theorem pyJoin_eq_specJoinRaw (l : List String) : pyJoin " " l = specJoinRaw l := by
  induction l with
  | nil => rfl
  | cons x xs ih =>
    rw [pyJoin_cons, ih]
    cases xs with
    | nil => simp [specJoinRaw]
    | cons y ys => simp [specJoinRaw, String.append_assoc]

/-- Joining pre-stripped segments is the trimmed specification join. -/
theorem specJoinRaw_map_strip (l : List String) :
    specJoinRaw (l.map pyStrip) = specJoinTrimmed l := by
  induction l with
  | nil => rfl
  | cons x xs ih =>
    cases xs with
    | nil => rfl
    | cons y ys =>
      rw [List.map_cons]
      rw [show (y :: ys).map pyStrip = pyStrip y :: ys.map pyStrip from rfl]
      rw [specJoinRaw, specJoinTrimmed]
      rw [← List.map_cons pyStrip y ys, ih]

/-! ## Lemmas about the chunk partition and the chunk loop -/

/-- The slice-start sequence is an arithmetic range with step 30000 and
the rounded-up quotient as its length. -/
theorem rangeStep_eq_range' (d : Nat) :
    ∀ n i, d - i ≤ n → rangeStep i d = List.range' i ((d - i + 29999) / 30000) 30000 := by
  intro n
  induction n with
  | zero =>
    intro i h
    rw [rangeStep, if_neg (by omega)]
    have h0 : (d - i + 29999) / 30000 = 0 := by omega
    rw [h0, List.range'_zero]
  | succ n ih =>
    intro i h
    by_cases hc : i < d
    · rw [rangeStep, if_pos hc, ih (i + 30000) (by omega)]
      have hm : (d - i + 29999) / 30000 = (d - (i + 30000) + 29999) / 30000 + 1 := by omega
      rw [hm, List.range'_succ]
    · rw [rangeStep, if_neg hc]
      have h0 : (d - i + 29999) / 30000 = 0 := by omega
      rw [h0, List.range'_zero]

/-- Slice starts from offset zero. -/
theorem rangeStep_zero_eq (d : Nat) :
    rangeStep 0 d = List.range' 0 ((d + 29999) / 30000) 30000 := by
  simpa using rangeStep_eq_range' d (d - 0) 0 le_rfl

/-- The number of chunks is the duration divided by 30000 rounded up. -/
theorem chunks_length (d : Nat) : (chunks d).length = (d + 29999) / 30000 := by
  rw [chunks, rangeStep_zero_eq]
  simp

/-- The lengths of the slices of the tail of the asset sum to what
remains of the duration. -/
theorem rangeStep_sum (d : Nat) :
    ∀ n i, d - i ≤ n → ((rangeStep i d).map (fun s => min 30000 (d - s))).sum = d - i := by
  intro n
  induction n with
  | zero =>
    intro i h
    rw [rangeStep, if_neg (by omega)]
    simp
    omega
  | succ n ih =>
    intro i h
    by_cases hc : i < d
    · rw [rangeStep, if_pos hc]
      rw [List.map_cons, List.sum_cons, ih (i + 30000) (by omega)]
      omega
    · rw [rangeStep, if_neg hc]
      simp
      omega

/-- Pointwise description of the chunk list: chunk j starts at 30000 j
and extends to the end of the asset or 30000 further, whichever is
nearer. -/
theorem chunks_getElem (d j : Nat) (h : j < (chunks d).length) :
    (chunks d)[j]? = some (30000 * j, min 30000 (d - 30000 * j)) := by
  rw [chunks_length] at h
  rw [chunks, rangeStep_zero_eq, List.getElem?_map, List.getElem?_range' 0 30000 h]
  simp

/-- A chunk loop over indices whose recognition never reports a request
error collects exactly the recognized texts. -/
theorem chunkLoop_ok (recog : Nat → RecogResult) (l : List Nat)
    (h : ∀ i ∈ l, ∀ e, recog i ≠ .requestError e) :
    chunkLoop recog l = .ok (okTexts recog l) := by
  induction l with
  | nil => rfl
  | cons i rest ih =>
    have hi := h i (List.mem_cons_self i rest)
    have hr : ∀ j ∈ rest, ∀ e, recog j ≠ .requestError e :=
      fun j hj => h j (List.mem_cons_of_mem i hj)
    cases hrec : recog i with
    | text s =>
      rw [chunkLoop]
      rw [hrec, ih hr]
      simp [okTexts, hrec, Except.map]
    | unknownValue =>
      rw [chunkLoop]
      rw [hrec, ih hr]
      simp [okTexts, hrec]
    | requestError e => exact absurd hrec (hi e)

/-- A chunk loop whose first request error sits at index k stops with
exactly that cause. -/
theorem chunkLoop_error_range' (recog : Nat → RecogResult) (k : Nat) (e : String)
    (hfail : recog k = .requestError e) :
    ∀ m i, i ≤ k → k < i + m →
      (∀ j, i ≤ j → j < k → ∀ e2, recog j ≠ .requestError e2) →
      chunkLoop recog (List.range' i m) = .error e := by
  intro m
  induction m with
  | zero => intro i h1 h2 h3; omega
  | succ m ih =>
    intro i h1 h2 h3
    rw [List.range'_succ]
    by_cases hik : i = k
    · subst hik
      rw [chunkLoop, hfail]
    · have hlt : i < k := by omega
      cases hrec : recog i with
      | text s =>
        rw [chunkLoop, hrec, ih (i + 1) (by omega) (by omega) (fun j hj1 hj2 => h3 j (by omega) hj2)]
        rfl
      | unknownValue =>
        rw [chunkLoop, hrec]
        exact ih (i + 1) (by omega) (by omega) (fun j hj1 hj2 => h3 j (by omega) hj2)
      | requestError e2 => exact absurd hrec (h3 i (by omega) hlt e2)

/-- With the first request error at index k, recognition is invoked on
the indices up to k and on no later index. -/
theorem submittedChunks_range' (recog : Nat → RecogResult) (k : Nat) (e : String)
    (hfail : recog k = .requestError e) :
    ∀ m i, i ≤ k → k < i + m →
      (∀ j, i ≤ j → j < k → ∀ e2, recog j ≠ .requestError e2) →
      submittedChunks recog (List.range' i m) = List.range' i (k + 1 - i) := by
  intro m
  induction m with
  | zero => intro i h1 h2 h3; omega
  | succ m ih =>
    intro i h1 h2 h3
    rw [List.range'_succ]
    by_cases hik : i = k
    · subst hik
      rw [submittedChunks, hfail]
      have hone : i + 1 - i = 1 := by omega
      rw [hone, List.range'_one]
    · have hlt : i < k := by omega
      have hrest : submittedChunks recog (List.range' (i + 1) m) = List.range' (i + 1) (k + 1 - (i + 1)) :=
        ih (i + 1) (by omega) (by omega) (fun j hj1 hj2 => h3 j (by omega) hj2)
      have hcons : k + 1 - i = (k - i) + 1 := by omega
      cases hrec : recog i with
      | text s =>
        rw [submittedChunks, hrec, hrest, hcons, List.range'_succ]
        have heq : k + 1 - (i + 1) = k - i := by omega
        rw [heq]
      | unknownValue =>
        rw [submittedChunks, hrec, hrest, hcons, List.range'_succ]
        have heq : k + 1 - (i + 1) = k - i := by omega
        rw [heq]
      | requestError e2 => exact absurd hrec (h3 i (by omega) hlt e2)

/-- Appending a well-scoped continuation to a chunk trace keeps every
chunk file scoped: each created chunk file is removed by the very next
event. -/
theorem chunkTrace_scoped (recog : Nat → RecogResult) :
    ∀ l u, chunksScoped u = true → chunksScoped (chunkTrace recog l ++ u) = true := by
  intro l
  induction l with
  | nil => intro u hu; simpa using hu
  | cons i rest ih =>
    intro u hu
    cases hrec : recog i with
    | text s => simp [chunkTrace, hrec, chunksScoped, ih u hu]
    | unknownValue => simp [chunkTrace, hrec, chunksScoped, ih u hu]
    | requestError e => simp [chunkTrace, hrec, chunksScoped, hu]

/-! ## Lemmas about the identifier extractors -/

/-- The urlparse-based extractor maps the watch shape with a v query
parameter to the identifier. -/
theorem extractChars_watch (idc : List Char) (hne : idc ≠ [])
    (hall : idc.all isIdChar = true) :
    extractChars ("https://www.youtube.com/watch?v=".data ++ idc) = some idc := by
  have hhash : '#' ∉ idc := not_mem_of_all_isIdChar idc hall '#' (by decide)
  have hamp : '&' ∉ idc := not_mem_of_all_isIdChar idc hall '&' (by decide)
  simp [extractChars, urlparseChars, splitScheme, splitNetloc, splitAtFirst, isSchemeChar,
    isNetlocEnd, hostnameOf, lastPartAfter, qsFirst, qsPairs, splitChar,
    splitAtFirst_not_mem '#' idc hhash, splitChar_not_mem '&' idc hamp, hne,
    String.data]

/-- The urlparse-based extractor maps the shortened-domain shape to the
identifier. -/
theorem extractChars_short (idc : List Char)
    (hall : idc.all isIdChar = true) :
    extractChars ("https://youtu.be/".data ++ idc) = some idc := by
  have hhash : '#' ∉ idc := not_mem_of_all_isIdChar idc hall '#' (by decide)
  have hq : '?' ∉ idc := not_mem_of_all_isIdChar idc hall '?' (by decide)
  simp [extractChars, urlparseChars, splitScheme, splitNetloc, splitAtFirst, isSchemeChar,
    isNetlocEnd, hostnameOf, lastPartAfter, qsFirst, qsPairs, splitChar,
    splitAtFirst_not_mem '#' idc hhash, splitAtFirst_not_mem '?' idc hq,
    String.data]

/-- The urlparse-based extractor maps the embed shape to the
identifier. -/
theorem extractChars_embed (idc : List Char)
    (hall : idc.all isIdChar = true) :
    extractChars ("https://www.youtube.com/embed/".data ++ idc) = some idc := by
  have hhash : '#' ∉ idc := not_mem_of_all_isIdChar idc hall '#' (by decide)
  have hq : '?' ∉ idc := not_mem_of_all_isIdChar idc hall '?' (by decide)
  have hsl : '/' ∉ idc := not_mem_of_all_isIdChar idc hall '/' (by decide)
  simp [extractChars, urlparseChars, splitScheme, splitNetloc, splitAtFirst, isSchemeChar,
    isNetlocEnd, hostnameOf, lastPartAfter, qsFirst, qsPairs, splitChar, List.isPrefixOf,
    splitAtFirst_not_mem '#' idc hhash, splitAtFirst_not_mem '?' idc hq,
    splitChar_not_mem '/' idc hsl,
    String.data]

/-- The first app4 pattern finds the identifier in the watch shape. -/
theorem app4_watch (idc : List Char) (hne : idc ≠ [])
    (hall : idc.all isIdChar = true) :
    searchAlts app4Pat1 ("https://www.youtube.com/watch?v=".data ++ idc) = some idc := by
  simp [searchAlts, matchAlts, app4Pat1, List.isPrefixOf, String.data,
    capPlus_of_id idc hne hall]

/-- The first app4 pattern finds the identifier in the shortened-domain
shape. -/
theorem app4_short (idc : List Char) (hne : idc ≠ [])
    (hall : idc.all isIdChar = true) :
    searchAlts app4Pat1 ("https://youtu.be/".data ++ idc) = some idc := by
  simp [searchAlts, matchAlts, app4Pat1, List.isPrefixOf, String.data,
    capPlus_of_id idc hne hall]

/-- The first app4 pattern finds the identifier in the embed shape. -/
theorem app4_embed (idc : List Char) (hne : idc ≠ [])
    (hall : idc.all isIdChar = true) :
    searchAlts app4Pat1 ("https://www.youtube.com/embed/".data ++ idc) = some idc := by
  simp [searchAlts, matchAlts, app4Pat1, List.isPrefixOf, String.data,
    capPlus_of_id idc hne hall]

/-- The fixed-width capture only returns eleven identifier-alphabet
characters. -/
theorem take11Id_valid (cs t : List Char) (h : take11Id cs = some t) :
    t.length = 11 ∧ t.all isIdChar = true := by
  rw [take11Id] at h
  split at h
  · next hc =>
    obtain rfl : cs.take 11 = t := by injection h
    simp only [Bool.and_eq_true, decide_eq_true_eq] at hc
    exact ⟨hc.1, hc.2⟩
  · next => exact absurd h (by simp)

/-- A match of the first v1 pattern is a valid fixed-width capture. -/
theorem v1MatchAt1_valid (cs r : List Char) (h : v1MatchAt1 cs = some r) :
    r.length = 11 ∧ r.all isIdChar = true := by
  rw [v1MatchAt1] at h
  split at h
  · exact take11Id_valid _ _ h
  · split at h
    · exact take11Id_valid _ _ h
    · exact absurd h (by simp)

/-- A match of the second v1 pattern is a valid fixed-width capture. -/
theorem v1MatchAt2_valid (cs r : List Char) (h : v1MatchAt2 cs = some r) :
    r.length = 11 ∧ r.all isIdChar = true := by
  rw [v1MatchAt2] at h
  split at h
  · exact take11Id_valid _ _ h
  · exact absurd h (by simp)

/-- Any result of the first v1 search is a valid fixed-width capture. -/
theorem v1Search1_valid (l r : List Char) (h : v1Search1 l = some r) :
    r.length = 11 ∧ r.all isIdChar = true := by
  induction l with
  | nil => exact absurd h (by simp [v1Search1])
  | cons c cs ih =>
    rw [v1Search1] at h
    cases hm : v1MatchAt1 (c :: cs) with
    | some r2 =>
      rw [hm] at h
      obtain rfl : r2 = r := by injection h
      exact v1MatchAt1_valid _ _ hm
    | none =>
      rw [hm] at h
      exact ih h

/-- Any result of the second v1 search is a valid fixed-width capture. -/
theorem v1Search2_valid (l r : List Char) (h : v1Search2 l = some r) :
    r.length = 11 ∧ r.all isIdChar = true := by
  induction l with
  | nil => exact absurd h (by simp [v1Search2])
  | cons c cs ih =>
    rw [v1Search2] at h
    cases hm : v1MatchAt2 (c :: cs) with
    | some r2 =>
      rw [hm] at h
      obtain rfl : r2 = r := by injection h
      exact v1MatchAt2_valid _ _ hm
    | none =>
      rw [hm] at h
      exact ih h

/-! ## Claim C1 -/

/-- Claim C1, counterexample to the claim as stated: the transcription
abort result does not identify the failing chunk.  A run whose first
request error is on chunk 0 and a run whose first request error is on
chunk 1 return the very same pair, so no information in the returned
error distinguishes the failing chunk index; the error carries only the
cause text. -/
theorem c1_error_lacks_index :
    transcribe_audio (.ok 1) recogFail0 = (none, some "API Error: boom") ∧
    transcribe_audio (.ok 30001) recogFail1 = (none, some "API Error: boom") := by
  have h1 : chunks 1 = [(0, 1)] := by simp [chunks, rangeStep]
  have h2 : chunks 30001 = [(0, 30000), (30000, 1)] := by simp [chunks, rangeStep]
  constructor
  · rw [transcribe_audio, h1]
    rfl
  · rw [transcribe_audio, h2]
    rfl

/-- Claim C1 as amended: if the recognition service reports a request
error on chunk k and no earlier chunk, the whole transcription aborts at
once with the error message carrying that cause, and recognition is
submitted exactly for the chunks up to k — no chunk with index greater
than k is submitted.  The returned error does not carry the chunk
index. -/
theorem c1_abort_on_error (d k : Nat) (e : String) (recog : Nat → RecogResult)
    (hk : k < (chunks d).length)
    (hfail : recog k = .requestError e)
    (hpre : ∀ j, j < k → ∀ e2, recog j ≠ .requestError e2) :
    transcribe_audio (.ok d) recog = (none, some ("API Error: " ++ e)) ∧
    submittedChunks recog (List.range (chunks d).length) = List.range (k + 1) := by
  have hloop : chunkLoop recog (List.range (chunks d).length) = .error e := by
    rw [List.range_eq_range']
    exact chunkLoop_error_range' recog k e hfail ((chunks d).length) 0 (by omega) (by omega)
      (fun j hj1 hj2 => hpre j hj2)
  have hsub : submittedChunks recog (List.range (chunks d).length) = List.range (k + 1) := by
    rw [List.range_eq_range', List.range_eq_range']
    have h := submittedChunks_range' recog k e hfail ((chunks d).length) 0 (by omega) (by omega)
      (fun j hj1 hj2 => hpre j hj2)
    simpa using h
  exact ⟨by rw [transcribe_audio, hloop], hsub⟩

/-- Claim C1 witness: a two-chunk asset whose second chunk fails aborts
with the cause and submits exactly chunks 0 and 1. -/
theorem c1_abort_witness :
    transcribe_audio (.ok 30001) recogFail1 = (none, some ("API Error: " ++ "boom")) ∧
    submittedChunks recogFail1 (List.range (chunks 30001).length) = [0, 1] := by
  have hk : 1 < (chunks 30001).length := by simp [chunks, rangeStep]
  have hpre : ∀ j, j < 1 → ∀ e2, recogFail1 j ≠ RecogResult.requestError e2 := by
    intro j hj e2
    have hj0 : j = 0 := by omega
    subst hj0
    simp [recogFail1]
  have h := c1_abort_on_error 30001 1 "boom" recogFail1 hk (by rfl) hpre
  exact ⟨h.1, by rw [h.2]; rfl⟩

/-! ## Claim C2 -/

/-- Claim C2: for every asset of positive duration d the chunk
partition has exactly the rounded-up quotient of d by 30000 as its
number of chunks; chunk j starts at offset 30000 j with length the
minimum of 30000 and what remains, so chunks are contiguous,
non-overlapping and in index order; every chunk but the last has length
exactly 30000; the last chunk has length d mod 30000, or 30000 when d is
divisible; and the lengths sum to d, so the asset is covered
exhaustively. -/
theorem c2_chunk_partition (d : Nat) (hd : 0 < d) :
    (chunks d).length = (d + 30000 - 1) / 30000 ∧
    (∀ j, j < (chunks d).length →
      (chunks d)[j]? = some (30000 * j, min 30000 (d - 30000 * j))) ∧
    (∀ j, j + 1 < (chunks d).length →
      (chunks d)[j]? = some (30000 * j, 30000)) ∧
    (chunks d)[(chunks d).length - 1]? =
      some (30000 * ((chunks d).length - 1),
        if d % 30000 = 0 then 30000 else d % 30000) ∧
    ((chunks d).map (fun c => c.2)).sum = d := by
  refine ⟨by rw [chunks_length]; omega, fun j h => chunks_getElem d j h, ?_, ?_, ?_⟩
  · intro j h
    rw [chunks_getElem d j (by omega)]
    have hl := chunks_length d
    have hm : min 30000 (d - 30000 * j) = 30000 := by omega
    rw [hm]
  · have hl := chunks_length d
    have hlt : (chunks d).length - 1 < (chunks d).length := by omega
    rw [chunks_getElem d _ hlt]
    have hm : min 30000 (d - 30000 * ((chunks d).length - 1)) =
        if d % 30000 = 0 then 30000 else d % 30000 := by
      split
      · omega
      · omega
    rw [hm]
  · have hmap : (chunks d).map (fun c => c.2) = (rangeStep 0 d).map (fun s => min 30000 (d - s)) := by
      rw [chunks, List.map_map]
      rfl
    rw [hmap]
    simpa using rangeStep_sum d (d - 0) 0 le_rfl

/-- Claim C2 witness: a 65-second asset has three chunks, the last one
of 5 seconds starting at 60 seconds, and the lengths cover the asset. -/
theorem c2_witness :
    (chunks 65000).length = 3 ∧
    (chunks 65000)[2]? = some (60000, 5000) ∧
    ((chunks 65000).map (fun c => c.2)).sum = 65000 := by
  obtain ⟨h1, h2, h3, h4, h5⟩ := c2_chunk_partition 65000 (by norm_num)
  have hlen : (chunks 65000).length = 3 := by rw [h1]
  refine ⟨hlen, ?_, h5⟩
  have h := h4
  rw [hlen] at h
  norm_num at h
  exact h

/-! ## Claim C3 -/

/-- Claim C3: for every nonempty identifier over the identifier
alphabet, the urlparse-based extractor of app5 and the pattern-based
extractor of app4 both return exactly that identifier on the three
accepted URL shapes — the full watch URL with a v query parameter, the
shortened-domain path URL and the embed path URL. -/
theorem c3_same_id (id : String) (hne : id ≠ "")
    (hall : id.data.all isIdChar = true) :
    extract_video_id ("https://www.youtube.com/watch?v=" ++ id) = some id ∧
    extract_video_id ("https://youtu.be/" ++ id) = some id ∧
    extract_video_id ("https://www.youtube.com/embed/" ++ id) = some id ∧
    extract_video_id_app4 ("https://www.youtube.com/watch?v=" ++ id) = some id ∧
    extract_video_id_app4 ("https://youtu.be/" ++ id) = some id ∧
    extract_video_id_app4 ("https://www.youtube.com/embed/" ++ id) = some id := by
  have hd : id.data ≠ [] := by
    intro h
    exact hne (String.ext h)
  refine ⟨?_, ?_, ?_, ?_, ?_, ?_⟩
  · rw [extract_video_id, String.data_append, extractChars_watch id.data hd hall]
    try rfl
  · rw [extract_video_id, String.data_append, extractChars_short id.data hall]
    try rfl
  · rw [extract_video_id, String.data_append, extractChars_embed id.data hall]
    try rfl
  · rw [extract_video_id_app4, String.data_append, app4_watch id.data hd hall]
    try rfl
  · rw [extract_video_id_app4, String.data_append, app4_short id.data hd hall]
    try rfl
  · rw [extract_video_id_app4, String.data_append, app4_embed id.data hd hall]
    try rfl

/-- Claim C3 witness: a concrete eleven-character identifier is
recovered identically from all three shapes by both extractors. -/
theorem c3_witness :
    extract_video_id "https://www.youtube.com/watch?v=dQw4w9WgXcQ" = some "dQw4w9WgXcQ" ∧
    extract_video_id "https://youtu.be/dQw4w9WgXcQ" = some "dQw4w9WgXcQ" ∧
    extract_video_id "https://www.youtube.com/embed/dQw4w9WgXcQ" = some "dQw4w9WgXcQ" ∧
    extract_video_id_app4 "https://www.youtube.com/watch?v=dQw4w9WgXcQ" = some "dQw4w9WgXcQ" ∧
    extract_video_id_app4 "https://youtu.be/dQw4w9WgXcQ" = some "dQw4w9WgXcQ" ∧
    extract_video_id_app4 "https://www.youtube.com/embed/dQw4w9WgXcQ" = some "dQw4w9WgXcQ" := by
  have h := c3_same_id "dQw4w9WgXcQ" (by decide) (by decide)
  simpa using h

/-! ## Claim C4 -/

/-- Claim C4: malformed or empty references give None.  The empty
string, plain text, a foreign host, a watch URL without a v parameter
(whose KeyError the source catches) and an unrecognized youtube path all
give None, and in general any reference whose parsed hostname is not a
recognized platform host gives None.  The extractor is a total function
of the reference, which embeds the blanket except of the source: no
input raises. -/
theorem c4_malformed_absent :
    extract_video_id "" = none ∧
    extract_video_id "not a url" = none ∧
    extract_video_id "https://vimeo.com/12345678901" = none ∧
    extract_video_id "https://www.youtube.com/watch" = none ∧
    extract_video_id "https://www.youtube.com/playlist?list=PL123" = none ∧
    (∀ s : String, recognizedHost s = false → extract_video_id s = none) := by
  refine ⟨by decide, by decide, by decide, by decide, by decide, ?_⟩
  intro s hs
  suffices h : extractChars s.data = none by rw [extract_video_id, h]; rfl
  rw [extractChars]
  rw [recognizedHost] at hs
  cases hh : hostnameOf (urlparseChars s.data).netloc with
  | none => simp [hh]
  | some hname =>
    rw [hh] at hs
    simp only [Bool.or_eq_false_iff, decide_eq_false_iff_not] at hs
    simp [hh, hs.1.1, hs.1.2, hs.2]

/-- Claim C4 witness: a reference with an unrecognized host satisfies
the hypothesis of the general conjunct and maps to None. -/
theorem c4_witness :
    recognizedHost "ftp://example.org/video" = false ∧
    extract_video_id "ftp://example.org/video" = none := by
  refine ⟨by decide, c4_malformed_absent.2.2.2.2.2 "ftp://example.org/video" (by decide)⟩

/-! ## Claim C5 -/

/-- Claim C5, counterexample to the claim as stated: the urlparse-based
extractor of app5 performs no structural validation.  On a
shortened-domain reference whose path has a second segment it returns
the whole remaining path, a capture that contains a path separator, is
not fixed-width and is not drawn from the identifier alphabet. -/
theorem c5_counterexample :
    extract_video_id "https://youtu.be/abc/def" = some "abc/def" ∧
    ("abc/def".data.all isIdChar) = false ∧
    "abc/def".length ≠ 11 := by decide

/-- Claim C5 as amended: the pattern-based extractor of the v1 tool
validates structurally — every identifier it returns is an exactly
eleven-character token over the identifier alphabet — while the
urlparse-based extractor of app5 substring-extracts without structural
validation. -/
theorem c5_v1_validates (s t : String) (h : extract_video_id_v1 s = some t) :
    t.length = 11 ∧ t.data.all isIdChar = true := by
  rw [extract_video_id_v1] at h
  split at h
  · exact absurd h (by simp)
  · cases hs : v1Search1 s.data with
    | some r =>
      rw [hs] at h
      obtain rfl : String.mk r = t := by injection h
      exact v1Search1_valid _ _ hs
    | none =>
      rw [hs] at h
      obtain ⟨r, hr, rfl⟩ := Option.map_eq_some'.mp h
      exact v1Search2_valid _ _ hr

/-- Claim C5 witness: the v1 extractor accepts a concrete reference and
its result is indeed an eleven-character alphabet token. -/
theorem c5_witness :
    extract_video_id_v1 "https://youtu.be/dQw4w9WgXcQ" = some "dQw4w9WgXcQ" ∧
    ("dQw4w9WgXcQ".length = 11 ∧ "dQw4w9WgXcQ".data.all isIdChar = true) := by
  refine ⟨by decide, c5_v1_validates "https://youtu.be/dQw4w9WgXcQ" "dQw4w9WgXcQ" (by decide)⟩

/-! ## Claim C6 -/

/-- Claim C6, counterexample to the claim as stated: the transcription
join of src/app5.py line 131 does not trim the per-chunk texts.  With
recognized texts carrying surrounding whitespace the aggregate keeps
that whitespace and contains a double space, where the claimed
trim-then-join semantics would give a single-spaced result. -/
theorem c6_counterexample :
    transcribe_audio (.ok 60000) recogWS = (some " a  b", none) ∧
    pyJoin " " ([" a ", "b"].map pyStrip) = "a b" ∧
    " a  b" ≠ "a b" := by
  have h2 : chunks 60000 = [(0, 30000), (30000, 30000)] := by simp [chunks, rangeStep]
  refine ⟨?_, by decide, by decide⟩
  rw [transcribe_audio, h2]
  rfl

/-- Claim C6 as amended: the caption join of src/app5.py line 54 trims
each segment and inserts exactly one separating space between
consecutive segments in their given order, matching the specification
recurrence; the transcription join of line 131 inserts exactly one
separating space between the raw per-chunk texts without trimming them.
Both joins are plain functions of the segment sequence, hence
deterministic: joining the same sequence twice gives identical
output. -/
theorem c6_join_characterized (texts : List String) :
    captionJoin texts = specJoinTrimmed texts ∧
    pyJoin " " texts = specJoinRaw texts := by
  constructor
  · rw [captionJoin, pyJoin_eq_specJoinRaw, specJoinRaw_map_strip]
  · exact pyJoin_eq_specJoinRaw texts

/-! ## Claim C7 -/

/-- Claim C7: when no chunk reports a request error the transcription
succeeds, returning the single-space join of exactly the texts of the
chunks whose recognition succeeded, in index order.  A chunk reporting
no recognizable speech is skipped silently: it contributes no text at
all, so it also contributes no separator — the join runs over the
collected texts only and an empty contribution cannot create a double
space. -/
theorem c7_unknown_skipped (d : Nat) (recog : Nat → RecogResult)
    (h : ∀ i, i < (chunks d).length → ∀ e, recog i ≠ .requestError e) :
    transcribe_audio (.ok d) recog =
      (some (pyJoin " " (okTexts recog (List.range (chunks d).length))), none) := by
  rw [transcribe_audio, chunkLoop_ok recog _ (fun i hi => h i (by simpa using List.mem_range.mp hi))]

/-- Claim C7 witness: a 65-second asset whose chunks yield foo, no
recognizable speech and bar aggregates to exactly a single-spaced foo
bar with no separator artifact. -/
theorem c7_witness :
    transcribe_audio (.ok 65000) recogFUB = (some "foo bar", none) := by
  have hlen : (chunks 65000).length = 3 := by simp [chunks, rangeStep]
  have hno : ∀ i, i < (chunks 65000).length → ∀ e, recogFUB i ≠ RecogResult.requestError e := by
    intro i hi e
    rw [hlen] at hi
    rcases (by omega : i = 0 ∨ i = 1 ∨ i = 2) with h0 | h0 | h0 <;> subst h0 <;> simp [recogFUB]
  have h := c7_unknown_skipped 65000 recogFUB hno
  rw [h, hlen]
  rfl

/-! ## Claim C8 -/

/-- Claim C8: every result returned by the caption fetch, the audio
download and the chunked transcription populates exactly one component
of the returned pair — a value with no error, or an error with no value
— for every input and every collaborator outcome. -/
theorem c8_exactly_one :
    (∀ url svc, exactlyOnePopulated (fetch_youtube_transcript url svc)) ∧
    (∀ p o, exactlyOnePopulated (download_audio p o)) ∧
    (∀ load recog, exactlyOnePopulated (transcribe_audio load recog)) := by
  refine ⟨?_, ?_, ?_⟩
  · intro url svc
    rw [fetch_youtube_transcript]
    cases extract_video_id url with
    | none => simp [exactlyOnePopulated]
    | some vid =>
      by_cases hv : vid = ""
      · simp [hv, exactlyOnePopulated]
      · cases hsvc : svc vid <;> simp [hsvc, hv, exactlyOnePopulated]
  · intro p o
    cases o <;> simp [download_audio, exactlyOnePopulated]
  · intro load recog
    cases load with
    | error e => simp [transcribe_audio, exactlyOnePopulated]
    | ok d =>
      rw [transcribe_audio]
      cases hcl : chunkLoop recog (List.range (chunks d).length) <;> simp [hcl, exactlyOnePopulated]

/-! ## Claim C9 -/

/-- Claim C9: in the event trace of an audio-fallback acquisition,
every per-chunk temporary file is removed by the event immediately
following its creation — so it is gone when that chunk finishes,
whatever the chunk outcome and also on the aborting path — and whenever
the downloaded asset is materialized, the final event of the
acquisition removes it, on success and failure alike. -/
theorem c9_temp_files (dl : DownloadOutcome) (load : Except String Nat)
    (recog : Nat → RecogResult) :
    chunksScoped (acquisitionTrace dl load recog) = true ∧
    (FsEvent.mkAsset ∈ acquisitionTrace dl load recog →
      (acquisitionTrace dl load recog).getLast? = some FsEvent.rmAsset) := by
  cases dl with
  | fail e => simp [acquisitionTrace, chunksScoped]
  | ok =>
    constructor
    · show chunksScoped (FsEvent.mkAsset :: _) = true
      rw [show ∀ l, chunksScoped (FsEvent.mkAsset :: l) = chunksScoped l from fun l => rfl]
      cases load with
      | error e => rfl
      | ok d => exact chunkTrace_scoped recog (List.range (chunks d).length) [FsEvent.rmAsset] rfl
    · intro hmem
      show (FsEvent.mkAsset :: (_ ++ [FsEvent.rmAsset])).getLast? = some FsEvent.rmAsset
      rw [← List.cons_append]
      exact List.getLast?_concat _

/-- Claim C9 witness: a successful download of a 65-second asset with
the sample recognition outcomes produces a trace with every chunk file
scoped and the asset removal as the final event. -/
theorem c9_witness :
    chunksScoped (acquisitionTrace .ok (.ok 65000) recogFUB) = true ∧
    (acquisitionTrace .ok (.ok 65000) recogFUB).getLast? = some FsEvent.rmAsset := by
  have h := c9_temp_files .ok (.ok 65000) recogFUB
  exact ⟨h.1, h.2 (by simp [acquisitionTrace])⟩

/-! ## Claim C10 -/

/-- Claim C10: an asset of zero duration partitions into no chunks at
all and transcribes to the empty transcript with no error — an empty
but successful result. -/
theorem c10_zero_duration (recog : Nat → RecogResult) :
    chunks 0 = [] ∧ transcribe_audio (.ok 0) recog = (some "", none) := by
  have hc : chunks 0 = [] := by
    rw [chunks, rangeStep, if_neg (by omega)]
    rfl
  refine ⟨hc, ?_⟩
  rw [transcribe_audio, hc]
  rfl
